import Mathlib

/-!
# KeyMorph layout-conversion engine: a shallow embedding

This file embeds the core of the `keymorph` repository (src/layouts.rs) in
Lean 4 and proves the specified properties of the layout-conversion engine.

Modelling conventions:
* Rust `String` text is modelled as `List Char`; `String::len` (the UTF-8
  byte length) is modelled by `byteLen`, the sum of the UTF-8 sizes of the
  characters.
* Rust `HashMap<char, char>` is modelled as an association list with unique
  keys (`CharMap`).  `cmInsert` overwrites an existing key, exactly like
  `HashMap::insert`; `collect()` from an iterator of pairs is `cmFromList`,
  a left fold of inserts, so a later pair with a duplicate key overwrites an
  earlier one, matching `HashMap` collect semantics.  A `HashMap`'s
  iteration order is unspecified in Rust; the model fixes it to the
  insertion order of the list.  Every fact proved below about a map whose
  construction iterates a `HashMap` (`invert_map`, `combine_maps`) is
  independent of that choice except where explicitly noted.
* `HashMap<(LayoutCode, LayoutCode), HashMap<char, char>>` is likewise an
  association list keyed by ordered layout pairs.
* Rust threads in `parallel_convert_text` compute pure functions of their
  chunk; the embedding applies `convert_text` to each chunk and concatenates
  the results in chunk order, which is exactly what spawn/join produces.
-/

namespace Keymorph

/-- The supported layouts (src/layouts.rs, `enum LayoutCode`). -/
inductive LayoutCode where
  | Dvorak
  | Qwerty
  | Colemak
  | Russian
deriving DecidableEq, Repr

open LayoutCode

/-- Model of `HashMap<char, char>`: an association list with unique keys. -/
abbrev CharMap := List (Char × Char)

/-- `HashMap::get`, modelled on the association list. -/
def cmLookup (m : CharMap) (c : Char) : Option Char :=
  (m.find? fun p => p.1 == c).map (fun p => p.2)

/-- `HashMap::insert`: overwrites the binding of `k` if present. -/
def cmInsert (m : CharMap) (k v : Char) : CharMap :=
  (k, v) :: m.filter fun p => p.1 != k

/-- `collect()` of an iterator of pairs into a `HashMap`: fold of inserts,
later duplicates overwrite earlier ones. -/
def cmFromList (l : List (Char × Char)) : CharMap :=
  l.foldl (fun m p => cmInsert m p.1 p.2) []

/-- The keys of a character map. -/
def cmKeys (m : CharMap) : List Char :=
  m.map fun p => p.1

/-- Model of the keymap table `HashMap<(LayoutCode, LayoutCode), HashMap<char, char>>`. -/
abbrev KeymapTable := List ((LayoutCode × LayoutCode) × CharMap)

/-- `HashMap::get` on the keymap table. -/
def ktLookup (t : KeymapTable) (k : LayoutCode × LayoutCode) : Option CharMap :=
  (t.find? fun p => p.1 == k).map (fun p => p.2)

/-- `HashMap::insert` on the keymap table. -/
def ktInsert (t : KeymapTable) (k : LayoutCode × LayoutCode) (v : CharMap) : KeymapTable :=
  (k, v) :: t.filter fun p => p.1 != k

/-- `qwerty_to_dvorak` (src/layouts.rs:130): the hand-authored seed map.
All keys are distinct, so the `HashMap` it builds is exactly this list. -/
def qwerty_to_dvorak : CharMap :=
  [('q', '\''), ('w', ','), ('e', '.'), ('r', 'p'), ('t', 'y'), ('y', 'f'),
   ('u', 'g'), ('i', 'c'), ('o', 'r'), ('p', 'l'), ('s', 'o'), ('d', 'e'),
   ('f', 'u'), ('g', 'i'), ('h', 'd'), ('j', 'h'), ('k', 't'), ('l', 'n'),
   ('z', ';'), ('x', 'q'), ('c', 'j'), ('v', 'k'), ('b', 'x'), ('n', 'b'),
   (',', 'w'), ('.', 'v'), (';', 's'), ('/', 'z'), ('\'', '-'), ('[', '/'),
   (']', '='), ('-', '['), ('=', ']'),
   ('Q', '"'), ('W', '<'), ('E', '>'), ('R', 'P'), ('T', 'Y'), ('Y', 'F'),
   ('U', 'G'), ('I', 'C'), ('O', 'R'), ('P', 'L'), ('S', 'O'), ('D', 'E'),
   ('F', 'U'), ('G', 'I'), ('H', 'D'), ('J', 'H'), ('K', 'T'), ('L', 'N'),
   ('Z', ':'), ('X', 'Q'), ('C', 'J'), ('V', 'K'), ('B', 'X'), ('N', 'B'),
   ('<', 'W'), ('>', 'V'), (':', 'S'), ('?', 'Z'), ('"', '_'), ('{', '?'),
   ('}', '+'), ('_', '{'), ('+', '}')]

/-- `qwerty_to_colemak` (src/layouts.rs:202).  All keys are distinct.
Note the map is not injective: both 'r' and ';' map to 'p', and both
'R' and ':' map to 'P'. -/
def qwerty_to_colemak : CharMap :=
  [('e', 'f'), ('r', 'p'), ('t', 'g'), ('y', 'j'), ('u', 'l'), ('i', 'u'),
   ('o', 'y'), ('p', ';'), ('s', 'r'), ('d', 's'), ('f', 't'), ('g', 'd'),
   ('h', 'h'), ('j', 'n'), ('k', 'e'), ('l', 'i'), (';', 'p'), ('\'', '-'),
   ('-', '\''),
   ('E', 'F'), ('R', 'P'), ('T', 'G'), ('Y', 'J'), ('U', 'L'), ('I', 'U'),
   ('O', 'Y'), ('P', ':'), ('S', 'R'), ('D', 'S'), ('F', 'T'), ('G', 'D'),
   ('H', 'H'), ('J', 'N'), ('K', 'E'), ('L', 'I'), (':', 'P'), ('"', '_'),
   ('_', '"')]

/-- `qwerty_to_russian` (src/layouts.rs:246).  All keys are distinct. -/
def qwerty_to_russian : CharMap :=
  [('q', 'й'), ('w', 'ц'), ('e', 'у'), ('r', 'к'), ('t', 'е'), ('y', 'н'),
   ('u', 'г'), ('i', 'ш'), ('o', 'щ'), ('p', 'з'), ('[', 'х'), (']', 'ъ'),
   ('a', 'ф'), ('s', 'ы'), ('d', 'в'), ('f', 'а'), ('g', 'п'), ('h', 'р'),
   ('j', 'о'), ('k', 'л'), ('l', 'д'), (';', 'ж'), ('\'', 'э'), ('z', 'я'),
   ('x', 'ч'), ('c', 'с'), ('v', 'м'), ('b', 'и'), ('n', 'т'), ('m', 'ь'),
   (',', 'б'), ('.', 'ю'), ('/', '.'),
   ('Q', 'Й'), ('W', 'Ц'), ('E', 'У'), ('R', 'К'), ('T', 'Е'), ('Y', 'Н'),
   ('U', 'Г'), ('I', 'Ш'), ('O', 'Щ'), ('P', 'З'), ('{', 'Х'), ('}', 'Ъ'),
   ('A', 'Ф'), ('S', 'Ы'), ('D', 'В'), ('F', 'А'), ('G', 'П'), ('H', 'Р'),
   ('J', 'О'), ('K', 'Л'), ('L', 'Д'), (':', 'Ж'), ('"', 'Э'), ('Z', 'Я'),
   ('X', 'Ч'), ('C', 'С'), ('V', 'М'), ('B', 'И'), ('N', 'Т'), ('M', 'Ь'),
   ('<', 'Б'), ('>', 'Ю'), ('?', ',')]

/-- `invert_map` (src/layouts.rs:80): swap every (k, v) to (v, k) and collect.
If two keys share a value, the later pair (in iteration order) wins. -/
def invert_map (m : CharMap) : CharMap :=
  cmFromList (m.map fun p => (p.2, p.1))

/-- `combine_maps` (src/layouts.rs:84): for each (k, v) of `first`, emit
(k, second[v]) when `v` is a key of `second`, else (k, v). -/
def combine_maps (first second : CharMap) : CharMap :=
  cmFromList (first.map fun p => (p.1, (cmLookup second p.2).getD p.2))

/-- `generate_inverse_maps` (src/layouts.rs:52): add (L, Qwerty) as the
inverse of (Qwerty, L) for each peripheral layout L. -/
def generate_inverse_maps (keymaps : KeymapTable) : KeymapTable :=
  let layouts := [Dvorak, Colemak, Russian]
  layouts.foldl
    (fun km layout =>
      match ktLookup km (Qwerty, layout) with
      | some m => ktInsert km (layout, Qwerty) (invert_map m)
      | none => km)
    keymaps

/-- `generate_composite_maps` (src/layouts.rs:64): for distinct peripheral
layouts A, B, add (A, B) as the composition of (A, Qwerty) and (Qwerty, B). -/
def generate_composite_maps (keymaps : KeymapTable) : KeymapTable :=
  let layouts := [Dvorak, Colemak, Russian]
  layouts.foldl
    (fun km fromL =>
      layouts.foldl
        (fun km toL =>
          if fromL ≠ toL then
            match ktLookup km (fromL, Qwerty), ktLookup km (Qwerty, toL) with
            | some map_to_qwerty, some map_from_qwerty =>
                ktInsert km (fromL, toL) (combine_maps map_to_qwerty map_from_qwerty)
            | _, _ => km
          else km)
        km)
    keymaps

/-- `create_keymaps` (src/layouts.rs:31). -/
def create_keymaps : KeymapTable :=
  let keymaps : KeymapTable := []
  let keymaps := ktInsert keymaps (Qwerty, Dvorak) qwerty_to_dvorak
  let keymaps := ktInsert keymaps (Qwerty, Colemak) qwerty_to_colemak
  let keymaps := ktInsert keymaps (Qwerty, Russian) qwerty_to_russian
  let keymaps := generate_inverse_maps keymaps
  let keymaps := generate_composite_maps keymaps
  keymaps

/-- The lazily initialised global `KEYMAPS` (src/layouts.rs:27). -/
def KEYMAPS : KeymapTable := create_keymaps

/-- `convert_text` (src/layouts.rs:91): substitute every character through
the (fromL, toL) map, characters without an entry pass through unchanged;
when no map exists for the pair the text is returned unchanged. -/
def convert_text (text : List Char) (fromL toL : LayoutCode) : List Char :=
  match ktLookup KEYMAPS (fromL, toL) with
  | some map => text.map fun c => (cmLookup map c).getD c
  | none => text

/-- UTF-8 byte length of a character sequence: the model of Rust
`String::len`. -/
def byteLen (l : List Char) : Nat :=
  (l.map Char.utf8Size).sum

/-- Model of Rust `slice::chunks n`: contiguous chunks of length `n`, the
last chunk holding whatever remainder is left (possibly shorter).  On the
empty slice there are no chunks.  (`chunks 0` panics in Rust; the model
returns `[]` there, and every use below has `0 < n`.) -/
def chunksList (n : Nat) : List Char → List (List Char)
  | [] => []
  | c :: l =>
    if _h : n = 0 then [c :: l]
    else (c :: l).take n :: chunksList n ((c :: l).drop n)
termination_by l => l.length + 1
decreasing_by
  simp only [List.length_drop, List.length_cons]
  omega

/-- The chunk decomposition used by `parallel_convert_text`
(src/layouts.rs:107-113): chunk size is the UTF-8 byte length divided by
`MAX_THREADS = 4`, and the chunking is over the character sequence. -/
def parallelChunks (text : List Char) : List (List Char) :=
  chunksList (byteLen text / 4) text

/-- `parallel_convert_text` (src/layouts.rs:103): above a byte-length
threshold of 1000, convert the chunks independently and concatenate in
chunk order; otherwise run `convert_text` directly. -/
def parallel_convert_text (text : List Char) (fromL toL : LayoutCode) : List Char :=
  if byteLen text > 1000 then
    ((parallelChunks text).map fun chunk => convert_text chunk fromL toL).flatten
  else
    convert_text text fromL toL

/-- ASCII lowercasing of a string, the model of Rust `str::to_lowercase`
as applied here (all layout names are ASCII). -/
def to_lowercase (s : String) : String :=
  ⟨s.data.map Char.toLower⟩

/-- `FromStr for LayoutCode` (src/layouts.rs:13): case-insensitive match
over the four supported names; any other input yields `Err(())`, a unit
error with no payload. -/
def from_str (input : String) : Except Unit LayoutCode :=
  if to_lowercase input = "dvorak" then .ok Dvorak
  else if to_lowercase input = "qwerty" then .ok Qwerty
  else if to_lowercase input = "colemak" then .ok Colemak
  else if to_lowercase input = "russian" then .ok Russian
  else .error ()

/-!
## Literal values of the derived maps

The nine maps that `create_keymaps` derives (three inverses, six
composites) are written out below as literals, each proved equal to the
corresponding table entry by `rfl`.  All later concrete computations go
through these literals, which keeps kernel evaluation cheap.
-/

/-- Literal value of the derived (D, Q) map, for fast kernel evaluation. -/
def km_DQ : CharMap :=
  [('}', '+'), ('{', '_'), ('+', '}'), ('?', '{'), ('_', '"'), ('Z', '?'),
   ('S', ':'), ('V', '>'), ('W', '<'), ('B', 'N'), ('X', 'B'), ('K', 'V'),
   ('J', 'C'), ('Q', 'X'), (':', 'Z'), ('N', 'L'), ('T', 'K'), ('H', 'J'),
   ('D', 'H'), ('I', 'G'), ('U', 'F'), ('E', 'D'), ('O', 'S'), ('L', 'P'),
   ('R', 'O'), ('C', 'I'), ('G', 'U'), ('F', 'Y'), ('Y', 'T'), ('P', 'R'),
   ('>', 'E'), ('<', 'W'), ('"', 'Q'), (']', '='), ('[', '-'), ('=', ']'),
   ('/', '['), ('-', '\''), ('z', '/'), ('s', ';'), ('v', '.'), ('w', ','),
   ('b', 'n'), ('x', 'b'), ('k', 'v'), ('j', 'c'), ('q', 'x'), (';', 'z'),
   ('n', 'l'), ('t', 'k'), ('h', 'j'), ('d', 'h'), ('i', 'g'), ('u', 'f'),
   ('e', 'd'), ('o', 's'), ('l', 'p'), ('r', 'o'), ('c', 'i'), ('g', 'u'),
   ('f', 'y'), ('y', 't'), ('p', 'r'), ('.', 'e'), (',', 'w'), ('\'', 'q')]

/-- Literal value of the derived (C, Q) map, for fast kernel evaluation. -/
def km_CQ : CharMap :=
  [('"', '_'), ('_', '"'), ('P', ':'), ('I', 'L'), ('E', 'K'), ('N', 'J'),
   ('H', 'H'), ('D', 'G'), ('T', 'F'), ('S', 'D'), ('R', 'S'), (':', 'P'),
   ('Y', 'O'), ('U', 'I'), ('L', 'U'), ('J', 'Y'), ('G', 'T'), ('F', 'E'),
   ('\'', '-'), ('-', '\''), ('p', ';'), ('i', 'l'), ('e', 'k'), ('n', 'j'),
   ('h', 'h'), ('d', 'g'), ('t', 'f'), ('s', 'd'), ('r', 's'), (';', 'p'),
   ('y', 'o'), ('u', 'i'), ('l', 'u'), ('j', 'y'), ('g', 't'), ('f', 'e')]

/-- Literal value of the derived (R, Q) map, for fast kernel evaluation. -/
def km_RQ : CharMap :=
  [(',', '?'), ('Ю', '>'), ('Б', '<'), ('Ь', 'M'), ('Т', 'N'), ('И', 'B'),
   ('М', 'V'), ('С', 'C'), ('Ч', 'X'), ('Я', 'Z'), ('Э', '"'), ('Ж', ':'),
   ('Д', 'L'), ('Л', 'K'), ('О', 'J'), ('Р', 'H'), ('П', 'G'), ('А', 'F'),
   ('В', 'D'), ('Ы', 'S'), ('Ф', 'A'), ('Ъ', '}'), ('Х', '{'), ('З', 'P'),
   ('Щ', 'O'), ('Ш', 'I'), ('Г', 'U'), ('Н', 'Y'), ('Е', 'T'), ('К', 'R'),
   ('У', 'E'), ('Ц', 'W'), ('Й', 'Q'), ('.', '/'), ('ю', '.'), ('б', ','),
   ('ь', 'm'), ('т', 'n'), ('и', 'b'), ('м', 'v'), ('с', 'c'), ('ч', 'x'),
   ('я', 'z'), ('э', '\''), ('ж', ';'), ('д', 'l'), ('л', 'k'), ('о', 'j'),
   ('р', 'h'), ('п', 'g'), ('а', 'f'), ('в', 'd'), ('ы', 's'), ('ф', 'a'),
   ('ъ', ']'), ('х', '['), ('з', 'p'), ('щ', 'o'), ('ш', 'i'), ('г', 'u'),
   ('н', 'y'), ('е', 't'), ('к', 'r'), ('у', 'e'), ('ц', 'w'), ('й', 'q')]

/-- Literal value of the derived (D, C) map, for fast kernel evaluation. -/
def km_DC : CharMap :=
  [('\'', 'q'), (',', 'w'), ('.', 'f'), ('p', 'p'), ('y', 'g'), ('f', 'j'),
   ('g', 'l'), ('c', 'u'), ('r', 'y'), ('l', ';'), ('o', 'r'), ('e', 's'),
   ('u', 't'), ('i', 'd'), ('d', 'h'), ('h', 'n'), ('t', 'e'), ('n', 'i'),
   (';', 'z'), ('q', 'x'), ('j', 'c'), ('k', 'v'), ('x', 'b'), ('b', 'n'),
   ('w', ','), ('v', '.'), ('s', 'p'), ('z', '/'), ('-', '-'), ('/', '['),
   ('=', ']'), ('[', '\''), (']', '='), ('"', 'Q'), ('<', 'W'), ('>', 'F'),
   ('P', 'P'), ('Y', 'G'), ('F', 'J'), ('G', 'L'), ('C', 'U'), ('R', 'Y'),
   ('L', ':'), ('O', 'R'), ('E', 'S'), ('U', 'T'), ('I', 'D'), ('D', 'H'),
   ('H', 'N'), ('T', 'E'), ('N', 'I'), (':', 'Z'), ('Q', 'X'), ('J', 'C'),
   ('K', 'V'), ('X', 'B'), ('B', 'N'), ('W', '<'), ('V', '>'), ('S', 'P'),
   ('Z', '?'), ('_', '_'), ('?', '{'), ('+', '}'), ('{', '"'), ('}', '+')]

/-- Literal value of the derived (D, R) map, for fast kernel evaluation. -/
def km_DR : CharMap :=
  [('\'', 'й'), (',', 'ц'), ('.', 'у'), ('p', 'к'), ('y', 'е'), ('f', 'н'),
   ('g', 'г'), ('c', 'ш'), ('r', 'щ'), ('l', 'з'), ('o', 'ы'), ('e', 'в'),
   ('u', 'а'), ('i', 'п'), ('d', 'р'), ('h', 'о'), ('t', 'л'), ('n', 'д'),
   (';', 'я'), ('q', 'ч'), ('j', 'с'), ('k', 'м'), ('x', 'и'), ('b', 'т'),
   ('w', 'б'), ('v', 'ю'), ('s', 'ж'), ('z', '.'), ('-', 'э'), ('/', 'х'),
   ('=', 'ъ'), ('[', '-'), (']', '='), ('"', 'Й'), ('<', 'Ц'), ('>', 'У'),
   ('P', 'К'), ('Y', 'Е'), ('F', 'Н'), ('G', 'Г'), ('C', 'Ш'), ('R', 'Щ'),
   ('L', 'З'), ('O', 'Ы'), ('E', 'В'), ('U', 'А'), ('I', 'П'), ('D', 'Р'),
   ('H', 'О'), ('T', 'Л'), ('N', 'Д'), (':', 'Я'), ('Q', 'Ч'), ('J', 'С'),
   ('K', 'М'), ('X', 'И'), ('B', 'Т'), ('W', 'Б'), ('V', 'Ю'), ('S', 'Ж'),
   ('Z', ','), ('_', 'Э'), ('?', 'Х'), ('+', 'Ъ'), ('{', '_'), ('}', '+')]

/-- Literal value of the derived (C, D) map, for fast kernel evaluation. -/
def km_CD : CharMap :=
  [('f', '.'), ('g', 'y'), ('j', 'f'), ('l', 'g'), ('u', 'c'), ('y', 'r'),
   (';', 'l'), ('r', 'o'), ('s', 'e'), ('t', 'u'), ('d', 'i'), ('h', 'd'),
   ('n', 'h'), ('e', 't'), ('i', 'n'), ('p', 's'), ('-', '-'), ('\'', '['),
   ('F', '>'), ('G', 'Y'), ('J', 'F'), ('L', 'G'), ('U', 'C'), ('Y', 'R'),
   (':', 'L'), ('R', 'O'), ('S', 'E'), ('T', 'U'), ('D', 'I'), ('H', 'D'),
   ('N', 'H'), ('E', 'T'), ('I', 'N'), ('P', 'S'), ('_', '_'), ('"', '{')]

/-- Literal value of the derived (C, R) map, for fast kernel evaluation. -/
def km_CR : CharMap :=
  [('f', 'у'), ('g', 'е'), ('j', 'н'), ('l', 'г'), ('u', 'ш'), ('y', 'щ'),
   (';', 'з'), ('r', 'ы'), ('s', 'в'), ('t', 'а'), ('d', 'п'), ('h', 'р'),
   ('n', 'о'), ('e', 'л'), ('i', 'д'), ('p', 'ж'), ('-', 'э'), ('\'', '-'),
   ('F', 'У'), ('G', 'Е'), ('J', 'Н'), ('L', 'Г'), ('U', 'Ш'), ('Y', 'Щ'),
   (':', 'З'), ('R', 'Ы'), ('S', 'В'), ('T', 'А'), ('D', 'П'), ('H', 'Р'),
   ('N', 'О'), ('E', 'Л'), ('I', 'Д'), ('P', 'Ж'), ('_', 'Э'), ('"', '_')]

/-- Literal value of the derived (R, D) map, for fast kernel evaluation. -/
def km_RD : CharMap :=
  [('й', '\''), ('ц', ','), ('у', '.'), ('к', 'p'), ('е', 'y'), ('н', 'f'),
   ('г', 'g'), ('ш', 'c'), ('щ', 'r'), ('з', 'l'), ('х', '/'), ('ъ', '='),
   ('ф', 'a'), ('ы', 'o'), ('в', 'e'), ('а', 'u'), ('п', 'i'), ('р', 'd'),
   ('о', 'h'), ('л', 't'), ('д', 'n'), ('ж', 's'), ('э', '-'), ('я', ';'),
   ('ч', 'q'), ('с', 'j'), ('м', 'k'), ('и', 'x'), ('т', 'b'), ('ь', 'm'),
   ('б', 'w'), ('ю', 'v'), ('.', 'z'), ('Й', '"'), ('Ц', '<'), ('У', '>'),
   ('К', 'P'), ('Е', 'Y'), ('Н', 'F'), ('Г', 'G'), ('Ш', 'C'), ('Щ', 'R'),
   ('З', 'L'), ('Х', '?'), ('Ъ', '+'), ('Ф', 'A'), ('Ы', 'O'), ('В', 'E'),
   ('А', 'U'), ('П', 'I'), ('Р', 'D'), ('О', 'H'), ('Л', 'T'), ('Д', 'N'),
   ('Ж', 'S'), ('Э', '_'), ('Я', ':'), ('Ч', 'Q'), ('С', 'J'), ('М', 'K'),
   ('И', 'X'), ('Т', 'B'), ('Ь', 'M'), ('Б', 'W'), ('Ю', 'V'), (',', 'Z')]

/-- Literal value of the derived (R, C) map, for fast kernel evaluation. -/
def km_RC : CharMap :=
  [('й', 'q'), ('ц', 'w'), ('у', 'f'), ('к', 'p'), ('е', 'g'), ('н', 'j'),
   ('г', 'l'), ('ш', 'u'), ('щ', 'y'), ('з', ';'), ('х', '['), ('ъ', ']'),
   ('ф', 'a'), ('ы', 'r'), ('в', 's'), ('а', 't'), ('п', 'd'), ('р', 'h'),
   ('о', 'n'), ('л', 'e'), ('д', 'i'), ('ж', 'p'), ('э', '-'), ('я', 'z'),
   ('ч', 'x'), ('с', 'c'), ('м', 'v'), ('и', 'b'), ('т', 'n'), ('ь', 'm'),
   ('б', ','), ('ю', '.'), ('.', '/'), ('Й', 'Q'), ('Ц', 'W'), ('У', 'F'),
   ('К', 'P'), ('Е', 'G'), ('Н', 'J'), ('Г', 'L'), ('Ш', 'U'), ('Щ', 'Y'),
   ('З', ':'), ('Х', '{'), ('Ъ', '}'), ('Ф', 'A'), ('Ы', 'R'), ('В', 'S'),
   ('А', 'T'), ('П', 'D'), ('Р', 'H'), ('О', 'N'), ('Л', 'E'), ('Д', 'I'),
   ('Ж', 'P'), ('Э', '_'), ('Я', 'Z'), ('Ч', 'X'), ('С', 'C'), ('М', 'V'),
   ('И', 'B'), ('Т', 'N'), ('Ь', 'M'), ('Б', '<'), ('Ю', '>'), (',', '?')]

/-!
## The table entries

Each of the twelve ordered pairs of distinct layouts is present in
`KEYMAPS`; the three hub-outgoing entries hold the seed maps and the nine
others hold the literals above.  Same-layout pairs have no entry.
-/

theorem ktLookup_QD : ktLookup KEYMAPS (Qwerty, Dvorak) = some qwerty_to_dvorak := by rfl

theorem ktLookup_QC : ktLookup KEYMAPS (Qwerty, Colemak) = some qwerty_to_colemak := by rfl

theorem ktLookup_QR : ktLookup KEYMAPS (Qwerty, Russian) = some qwerty_to_russian := by rfl

theorem ktLookup_DQ : ktLookup KEYMAPS (Dvorak, Qwerty) = some km_DQ := by rfl

theorem ktLookup_CQ : ktLookup KEYMAPS (Colemak, Qwerty) = some km_CQ := by rfl

theorem ktLookup_RQ : ktLookup KEYMAPS (Russian, Qwerty) = some km_RQ := by rfl

theorem ktLookup_DC : ktLookup KEYMAPS (Dvorak, Colemak) = some km_DC := by rfl

theorem ktLookup_DR : ktLookup KEYMAPS (Dvorak, Russian) = some km_DR := by rfl

theorem ktLookup_CD : ktLookup KEYMAPS (Colemak, Dvorak) = some km_CD := by rfl

theorem ktLookup_CR : ktLookup KEYMAPS (Colemak, Russian) = some km_CR := by rfl

theorem ktLookup_RD : ktLookup KEYMAPS (Russian, Dvorak) = some km_RD := by rfl

theorem ktLookup_RC : ktLookup KEYMAPS (Russian, Colemak) = some km_RC := by rfl

theorem ktLookup_same (a : LayoutCode) : ktLookup KEYMAPS (a, a) = none := by
  cases a <;> rfl

/-!
## Basic facts about `convert_text`
-/

theorem convert_text_eq_map {a b : LayoutCode} {m : CharMap}
    (h : ktLookup KEYMAPS (a, b) = some m) (text : List Char) :
    convert_text text a b = text.map fun c => (cmLookup m c).getD c := by
  unfold convert_text
  rw [h]

theorem convert_text_of_none {a b : LayoutCode}
    (h : ktLookup KEYMAPS (a, b) = none) (text : List Char) :
    convert_text text a b = text := by
  unfold convert_text
  rw [h]

theorem convert_text_nil (a b : LayoutCode) : convert_text [] a b = [] := by
  cases h : ktLookup KEYMAPS (a, b) with
  | none => exact convert_text_of_none h []
  | some m => rw [convert_text_eq_map h]; rfl

/-- `convert_text` substitutes characters independently, so it is a
homomorphism for concatenation. -/
theorem convert_text_append (s t : List Char) (a b : LayoutCode) :
    convert_text (s ++ t) a b = convert_text s a b ++ convert_text t a b := by
  cases h : ktLookup KEYMAPS (a, b) with
  | none => rw [convert_text_of_none h, convert_text_of_none h, convert_text_of_none h]
  | some m =>
      rw [convert_text_eq_map h, convert_text_eq_map h, convert_text_eq_map h]
      exact List.map_append _ s t

theorem convert_text_flatten (cs : List (List Char)) (a b : LayoutCode) :
    (cs.map fun c => convert_text c a b).flatten = convert_text cs.flatten a b := by
  induction cs with
  | nil => simp [convert_text_nil]
  | cons c cs ih => simp [convert_text_append, ih]

/-!
## Facts about the chunk decomposition
-/

theorem chunksList_flatten (n : Nat) (hn : 0 < n) (l : List Char) :
    (chunksList n l).flatten = l := by
  induction l using chunksList.induct n with
  | case1 => simp [chunksList]
  | case2 c l h => omega
  | case3 c l h ih =>
      rw [chunksList]
      simp only [dif_neg h, List.flatten_cons, ih]
      exact List.take_append_drop n (c :: l)

theorem chunksList_dropLast_length (n : Nat) (hn : 0 < n) (l : List Char) :
    ∀ c ∈ (chunksList n l).dropLast, c.length = n := by
  induction l using chunksList.induct n with
  | case1 => intro c hc; simp [chunksList] at hc
  | case2 c l h => omega
  | case3 c l h ih =>
      rw [chunksList]
      simp only [dif_neg h]
      cases hrest : chunksList n ((c :: l).drop n) with
      | nil => intro x hx; simp at hx
      | cons r rs =>
          intro x hx
          rw [List.dropLast_cons₂] at hx
          rcases List.mem_cons.mp hx with rfl | hx
          · have hne : (c :: l).drop n ≠ [] := by
              intro hemp
              rw [hemp] at hrest
              simp [chunksList] at hrest
            have hlen : n < (c :: l).length := by
              by_contra hge
              exact hne (List.drop_eq_nil_of_le (by omega))
            exact List.length_take_of_le (by omega)
          · rw [← hrest] at hx
            exact ih x hx

/-!
## The claims
-/

/-- C1: for every input text and every pair of layouts, the concurrent
path equals the sequential path: `parallel_convert_text T A B` equals
`convert_text T A B`, for all text lengths — below, exactly at, and above
the chunking threshold. -/
theorem parallel_convert_eq_convert (text : List Char) (a b : LayoutCode) :
    parallel_convert_text text a b = convert_text text a b := by
  unfold parallel_convert_text
  split
  · next h =>
      have hpos : 0 < byteLen text / 4 := Nat.div_pos (by omega) (by omega)
      unfold parallelChunks
      rw [convert_text_flatten, chunksList_flatten _ hpos]
  · rfl

/-- C6: `convert_text` preserves the number of characters exactly:
no insertion or deletion, one character out per character in. -/
theorem convert_text_length (text : List Char) (a b : LayoutCode) :
    (convert_text text a b).length = text.length := by
  cases h : ktLookup KEYMAPS (a, b) with
  | none => rw [convert_text_of_none h]
  | some m => rw [convert_text_eq_map h]; exact List.length_map text _

/-- C7: same-layout conversion is the identity: the table has no entry for
a pair (A, A), and `convert_text` returns the text unchanged in that case. -/
theorem convert_text_same_layout (text : List Char) (a : LayoutCode) :
    convert_text text a a = text :=
  convert_text_of_none (ktLookup_same a) text

/-- C10: `convert_text` is a homomorphism over concatenation: each
character is substituted independently of its neighbours, so converting a
concatenation equals concatenating the conversions.  This is the lemma
that makes chunked concurrent conversion safe at any character boundary. -/
theorem convert_text_concat_hom (s t : List Char) (a b : LayoutCode) :
    convert_text (s ++ t) a b = convert_text s a b ++ convert_text t a b :=
  convert_text_append s t a b

theorem byteLen_replicate (n : Nat) (c : Char) :
    byteLen (List.replicate n c) = n * c.utf8Size := by
  induction n with
  | zero => simp [byteLen]
  | succ n ih =>
      simp only [List.replicate_succ, byteLen, List.map_cons, List.sum_cons] at ih ⊢
      rw [ih]
      ring

theorem chunksList_length (n : Nat) (hn : 0 < n) (l : List Char) :
    (chunksList n l).length = (l.length + n - 1) / n := by
  induction l using chunksList.induct n with
  | case1 =>
      simp only [chunksList, List.length_nil, Nat.zero_add]
      rw [Nat.div_eq_of_lt (by omega)]
  | case2 c l h => omega
  | case3 c l h ih =>
      rw [chunksList]
      simp only [dif_neg h, List.length_cons, ih, List.length_drop]
      rcases le_or_lt n (l.length + 1) with hle | hlt
      · have h1 : l.length + 1 - n + n - 1 = l.length := by omega
        have h2 : l.length + 1 + n - 1 = l.length + n := by omega
        rw [h1, h2, Nat.add_div_right _ hn]
      · have h1 : l.length + 1 - n = 0 := by omega
        have h2 : (0 + n - 1) / n = 0 := Nat.div_eq_of_lt (by omega)
        have h3 : (l.length + 1 + n - 1) / n = 1 := by
          apply Nat.div_eq_of_lt_le (by omega) (by omega)
        rw [h1, h2, h3]

theorem map_id_of_forall {l : List Char} {f : Char → Char}
    (h : ∀ c ∈ l, f c = c) : l.map f = l := by
  induction l with
  | nil => rfl
  | cons c t ih =>
      rw [List.map_cons, h c (List.mem_cons_self c t),
        ih fun x hx => h x (List.mem_cons_of_mem c hx)]

/-- If converting A→B then B→A fixes every key of the (A, B) map, the
round trip fixes every text drawn from those keys. -/
theorem roundtrip_of_charwise {a b : LayoutCode} {mab mba : CharMap}
    (hab : ktLookup KEYMAPS (a, b) = some mab)
    (hba : ktLookup KEYMAPS (b, a) = some mba)
    (hc : ∀ c ∈ cmKeys mab,
        (cmLookup mba ((cmLookup mab c).getD c)).getD ((cmLookup mab c).getD c) = c)
    (T : List Char) (hT : ∀ c ∈ T, c ∈ cmKeys mab) :
    convert_text (convert_text T a b) b a = T := by
  rw [convert_text_eq_map hab, convert_text_eq_map hba, List.map_map]
  exact map_id_of_forall fun c hcT => hc c (hT c hcT)

/-- C4: after the table is built, every ordered pair of distinct supported
layouts has an entry (all 12 ordered pairs over the four layouts). -/
theorem keymaps_all_pairs_present (a b : LayoutCode) (h : a ≠ b) :
    (ktLookup KEYMAPS (a, b)).isSome = true := by
  cases a <;> cases b <;>
    simp_all [ktLookup_QD, ktLookup_QC, ktLookup_QR, ktLookup_DQ, ktLookup_CQ,
      ktLookup_RQ, ktLookup_DC, ktLookup_DR, ktLookup_CD, ktLookup_CR,
      ktLookup_RD, ktLookup_RC]

theorem keymaps_all_pairs_present_witness :
    Dvorak ≠ Qwerty ∧ (ktLookup KEYMAPS (Dvorak, Qwerty)).isSome = true :=
  ⟨by decide, keymaps_all_pairs_present Dvorak Qwerty (by decide)⟩

/-- C5: for distinct peripheral layouts A and B, the composite (A, B) map
agrees with composing (A, Qwerty) and (Qwerty, B) with identity fallback:
for every key k of (A, Qwerty) with image v, the (A, B) entry of k is
(Qwerty, B)[v] when v is a key of (Qwerty, B), and v itself otherwise. -/
theorem composite_map_via_hub (a b : LayoutCode)
    (ha : a ≠ Qwerty) (hb : b ≠ Qwerty) (hab : a ≠ b) (k : Char)
    (hk : k ∈ cmKeys ((ktLookup KEYMAPS (a, Qwerty)).getD [])) :
    cmLookup ((ktLookup KEYMAPS (a, b)).getD []) k
      = (cmLookup ((ktLookup KEYMAPS (a, Qwerty)).getD []) k).map
          (fun v => (cmLookup ((ktLookup KEYMAPS (Qwerty, b)).getD []) v).getD v) := by
  revert k
  cases a <;> cases b <;>
    first
      | exact absurd rfl ha
      | exact absurd rfl hb
      | exact absurd rfl hab
      | (simp only [ktLookup_DQ, ktLookup_CQ, ktLookup_RQ, ktLookup_DC, ktLookup_DR,
          ktLookup_CD, ktLookup_CR, ktLookup_RD, ktLookup_RC, ktLookup_QD, ktLookup_QC,
          ktLookup_QR, Option.getD_some]
         decide)

theorem composite_map_via_hub_witness :
    cmLookup ((ktLookup KEYMAPS (Dvorak, Colemak)).getD []) 'x'
      = (cmLookup ((ktLookup KEYMAPS (Dvorak, Qwerty)).getD []) 'x').map
          (fun v => (cmLookup ((ktLookup KEYMAPS (Qwerty, Colemak)).getD []) v).getD v) :=
  composite_map_via_hub Dvorak Colemak (by decide) (by decide) (by decide) 'x'
    (by rw [ktLookup_DQ]; decide)

/-- C2 refuted at a concrete input: 'x' is a key of the (Dvorak, Colemak)
map, yet converting "x" Dvorak→Colemak gives "b" (identity fallback at the
second hop) and converting back Colemak→Dvorak leaves "b" unchanged, so the
round trip does not return the original text. -/
theorem roundtrip_counterexample :
    ('x' ∈ cmKeys ((ktLookup KEYMAPS (Dvorak, Colemak)).getD [])) ∧
      convert_text (convert_text ['x'] Dvorak Colemak) Colemak Dvorak ≠ ['x'] := by
  constructor
  · rw [ktLookup_DC]
    decide
  · rw [convert_text_eq_map ktLookup_DC, convert_text_eq_map ktLookup_CD]
    decide

/-- C2 amended: the round trip `convert_text (convert_text T A B) B A = T`
holds for texts drawn from the keys of the (A, B) map exactly for the pairs
(Qwerty, Dvorak), (Dvorak, Qwerty), (Qwerty, Russian), (Russian, Qwerty),
(Colemak, Qwerty) and (Colemak, Dvorak); the other six ordered pairs have a
key whose round trip is broken by the identity fallback or by the
non-injective Colemak seed map. -/
theorem roundtrip_amended (a b : LayoutCode)
    (h : (a, b) ∈ [(Qwerty, Dvorak), (Dvorak, Qwerty), (Qwerty, Russian),
      (Russian, Qwerty), (Colemak, Qwerty), (Colemak, Dvorak)])
    (T : List Char)
    (hT : ∀ c ∈ T, c ∈ cmKeys ((ktLookup KEYMAPS (a, b)).getD [])) :
    convert_text (convert_text T a b) b a = T := by
  simp only [List.mem_cons, List.not_mem_nil, or_false, Prod.mk.injEq] at h
  rcases h with ⟨rfl, rfl⟩ | ⟨rfl, rfl⟩ | ⟨rfl, rfl⟩ | ⟨rfl, rfl⟩ | ⟨rfl, rfl⟩ | ⟨rfl, rfl⟩
  · exact roundtrip_of_charwise ktLookup_QD ktLookup_DQ (by decide) T
      (by simpa only [ktLookup_QD, Option.getD_some] using hT)
  · exact roundtrip_of_charwise ktLookup_DQ ktLookup_QD (by decide) T
      (by simpa only [ktLookup_DQ, Option.getD_some] using hT)
  · exact roundtrip_of_charwise ktLookup_QR ktLookup_RQ (by decide) T
      (by simpa only [ktLookup_QR, Option.getD_some] using hT)
  · exact roundtrip_of_charwise ktLookup_RQ ktLookup_QR (by decide) T
      (by simpa only [ktLookup_RQ, Option.getD_some] using hT)
  · exact roundtrip_of_charwise ktLookup_CQ ktLookup_QC (by decide) T
      (by simpa only [ktLookup_CQ, Option.getD_some] using hT)
  · exact roundtrip_of_charwise ktLookup_CD ktLookup_DC (by decide) T
      (by simpa only [ktLookup_CD, Option.getD_some] using hT)

theorem roundtrip_amended_witness :
    convert_text (convert_text ['h', 'e', 'l', 'l', 'o'] Qwerty Dvorak) Dvorak Qwerty
      = ['h', 'e', 'l', 'l', 'o'] :=
  roundtrip_amended Qwerty Dvorak (by decide) ['h', 'e', 'l', 'l', 'o']
    (by rw [ktLookup_QD]; decide)

/-- C3 refuted at the peripheral layout Colemak: because the Colemak seed
map sends both 'r' and ';' to 'p' (and both 'R' and ':' to 'P'), the
derived (Colemak, Qwerty) map has 36 entries against the 38 of
(Qwerty, Colemak), so the two maps are not exact functional inverses. -/
theorem inverse_exactness_counterexample :
    ¬ ((∀ p ∈ (ktLookup KEYMAPS (Qwerty, Colemak)).getD ([] : CharMap),
          cmLookup ((ktLookup KEYMAPS (Colemak, Qwerty)).getD []) p.2 = some p.1) ∧
        ((ktLookup KEYMAPS (Colemak, Qwerty)).getD ([] : CharMap)).length
          = ((ktLookup KEYMAPS (Qwerty, Colemak)).getD ([] : CharMap)).length) := by
  rw [ktLookup_QC, ktLookup_CQ]
  decide

/-- C3 amended: for the peripheral layouts whose seed map is injective —
Dvorak and Russian — the (L, Qwerty) map is the exact functional inverse of
(Qwerty, L): every entry (k, v) of (Qwerty, L) has (v, k) in (L, Qwerty),
and the two maps have equal size.  (For Colemak the seed map is not
injective and the property fails.) -/
theorem inverse_exactness_amended (l : LayoutCode) (h : l = Dvorak ∨ l = Russian) :
    (∀ p ∈ (ktLookup KEYMAPS (Qwerty, l)).getD ([] : CharMap),
        cmLookup ((ktLookup KEYMAPS (l, Qwerty)).getD []) p.2 = some p.1) ∧
      ((ktLookup KEYMAPS (l, Qwerty)).getD ([] : CharMap)).length
        = ((ktLookup KEYMAPS (Qwerty, l)).getD ([] : CharMap)).length := by
  rcases h with rfl | rfl
  · rw [ktLookup_QD, ktLookup_DQ]
    decide
  · rw [ktLookup_QR, ktLookup_RQ]
    decide

theorem inverse_exactness_amended_witness :
    (∀ p ∈ (ktLookup KEYMAPS (Qwerty, Dvorak)).getD ([] : CharMap),
        cmLookup ((ktLookup KEYMAPS (Dvorak, Qwerty)).getD []) p.2 = some p.1) ∧
      ((ktLookup KEYMAPS (Dvorak, Qwerty)).getD ([] : CharMap)).length
        = ((ktLookup KEYMAPS (Qwerty, Dvorak)).getD ([] : CharMap)).length :=
  inverse_exactness_amended Dvorak (Or.inl rfl)

/-- C8 refuted: the parse failure carries no diagnostic payload.  Two
different unknown layout names produce the very same unit error value, so
the failure cannot carry the offending input. -/
theorem parse_counterexample :
    from_str "azerty" = Except.error () ∧ from_str "workman" = Except.error () ∧
      ¬∃ f : Unit → String, f () = "azerty" ∧ f () = "workman" := by
  refine ⟨rfl, rfl, ?_⟩
  rintro ⟨f, h1, h2⟩
  rw [h1] at h2
  exact absurd h2 (by decide)

/-- C8 amended: parsing succeeds exactly when the lowercased input is one
of "dvorak", "qwerty", "colemak", "russian"; for any other input it fails —
but with a unit error that carries no information about the input. -/
theorem parse_amended (s : String) :
    ((∃ c, from_str s = Except.ok c) ↔
      to_lowercase s ∈ ["dvorak", "qwerty", "colemak", "russian"]) ∧
      (from_str s = Except.error () ↔
        to_lowercase s ∉ ["dvorak", "qwerty", "colemak", "russian"]) := by
  unfold from_str
  split_ifs with h1 h2 h3 h4 <;> simp_all

/-- C9 refuted at a concrete input: an ASCII text of 1001 characters is
above the threshold, the chunk size is 1001 / 4 = 250, and `slice::chunks`
then yields five chunks (250, 250, 250, 250, 1), not the configured worker
count of four — the remainder becomes an extra short chunk instead of being
absorbed by the last of four. -/
theorem chunk_count_counterexample :
    1000 < byteLen (List.replicate 1001 'a') ∧
      (parallelChunks (List.replicate 1001 'a')).length ≠ 4 := by
  have hb : byteLen (List.replicate 1001 'a') = 1001 := by
    rw [byteLen_replicate]
    decide
  refine ⟨by omega, ?_⟩
  unfold parallelChunks
  rw [hb, chunksList_length _ (by norm_num), List.length_replicate]
  norm_num

/-- C9 amended: above the byte-length threshold the concurrent path chunks
the character sequence into contiguous, order-preserving chunks whose size
is the integer division of the UTF-8 byte length by the worker count 4;
every chunk except the last has exactly that size, and the chunks
concatenated in order are exactly the input (no characters lost).  The
number of chunks is not always 4: a remainder yields a fifth, shorter chunk,
and multi-byte text yields fewer, larger chunks. -/
theorem chunking_amended (text : List Char) (h : 1000 < byteLen text) :
    (parallelChunks text).flatten = text ∧
      ∀ c ∈ (parallelChunks text).dropLast, c.length = byteLen text / 4 := by
  have hpos : 0 < byteLen text / 4 := Nat.div_pos (by omega) (by omega)
  exact ⟨chunksList_flatten _ hpos text, chunksList_dropLast_length _ hpos text⟩

theorem chunking_amended_witness :
    (parallelChunks (List.replicate 1001 'a')).flatten = List.replicate 1001 'a' ∧
      ∀ c ∈ (parallelChunks (List.replicate 1001 'a')).dropLast,
        c.length = byteLen (List.replicate 1001 'a') / 4 :=
  chunking_amended (List.replicate 1001 'a')
    (by rw [byteLen_replicate]; decide)

end Keymorph
